import Mathlib

/-!
Shallow embedding of the client-side AHP code of the repository
steam-game-decision-support.  Two source files are modelled:

* `src/static/js/ahp.js`   — embedded in namespace `SteamAhp.Ahpjs`
* `src/unnamed/part_000`   — embedded in namespace `SteamAhp.Part000`

JavaScript numbers are modelled as exact rationals `ℚ`; the DOM radio-button
state of a comparison group `compare_i_j` is modelled as a partial map
`Selection` from the pair `(i, j)` to the parsed value of the checked radio
(`none` when no radio of the group is checked).  DOM/localStorage effects are
modelled by explicit state records.
-/

namespace SteamAhp

/-- Radio-selection state: for the comparison group named `compare_i_j` the
parsed numeric value of the checked radio button, or `none` when no radio of
that group is checked. -/
abbrev Selection := Nat → Nat → Option ℚ

/-- State of the page pieces touched by `generatePairwiseComparisons`:
the innerHTML of `pairwiseComparisonsContainer`, the visibility of
`pairwiseSection`, and the list of alert messages shown so far. -/
structure UIState where
  container : String
  pairwiseVisible : Bool
  alerts : List String

/-- Shape of the JSON body answered by the `/calculate_ahp` endpoint, as read
by the client.  The JavaScript checks `data.success === true` and
`data.success === false` with strict equality; `success = none` models every
other value of that field. -/
structure AhpData where
  success : Option Bool
  criteria : List String
  weights : List ℚ
  consistency_ratio : ℚ
  is_consistent : Bool
  error : String

/-- Client-side state touched by `calculateWeights` and `displayResults`:
the `weights` global, the localStorage map, the alert messages, and the
`results` div (kept as the list of string chunks successively appended to
the `html` accumulator, in order) together with its visibility. -/
structure ClientState where
  weights : List ℚ
  store : String → Option String
  alerts : List String
  resultsChunks : List String
  resultsVisible : Bool

/-- JSON body posted to `/calculate_ahp`. -/
structure RequestBody where
  criteria : List String
  pairwise_matrix : List (List ℚ)

/-- Outcome of the fallible part of `calculateWeights` (the code inside its
try block up to `await response.json()`): either a well-formed parsed
response, or an exception message raised by the fetch or the JSON parse. -/
inductive FetchOutcome where
  | ok (data : AhpData)
  | thrown (msg : String)

/-- Modelled: JavaScript number-to-string conversion, abstracted to an exact
rendering of the rational value.  No claim depends on the digit format
produced by JavaScript floating-point printing. -/
def numToString (q : ℚ) : String :=
  if q.den = 1 then toString q.num else toString q

/-- JavaScript `str.replace('.', '_')`: replaces the first occurrence of a
dot by an underscore. -/
def replaceFirstDotAux : List Char → List Char
  | [] => []
  | c :: cs => if c = '.' then '_' :: cs else c :: replaceFirstDotAux cs

/-- String version of `replaceFirstDotAux`. -/
def replaceFirstDot (s : String) : String :=
  ⟨replaceFirstDotAux s.data⟩

/-- Whitespace recognizer of JavaScript `String.prototype.trim` (restricted
to the common ASCII whitespace characters; no claim depends on the exotic
Unicode whitespace code points). -/
def isJsWhitespace (c : Char) : Bool :=
  c == ' ' || c == '\t' || c == '\n' || c == '\r'

/-- Drops the leading whitespace of a character list. -/
def dropLeadingWs : List Char → List Char
  | [] => []
  | c :: cs => if isJsWhitespace c then dropLeadingWs cs else c :: cs

/-- Modelled: JavaScript `str.trim()`, removing leading and trailing
whitespace (kept executable, unlike the builtin string trim). -/
def jsTrim (s : String) : String :=
  ⟨(dropLeadingWs (dropLeadingWs s.data).reverse).reverse⟩

/-- Group name `compare_i_j` used for the pair of criteria indices `(i, j)`. -/
def compareName (p : Nat × Nat) : String :=
  "compare_" ++ (toString p.1 ++ ("_" ++ toString p.2))

/-- Value, label text, and isChecked flag of the 17 `createRadio` calls made
for every comparison group, in source order (lines 57-73 of ahp.js and
71-87 of part_000, identical in the two files). -/
def scaleEntries : List (ℚ × String × Bool) :=
  [(9, "9", false), (8, "8", false), (7, "7", false), (6, "6", false),
   (5, "5", false), (4, "4", false), (3, "3", false), (2, "2", false),
   (1, "1", true),
   (1/2, "2", false), (1/3, "3", false), (1/4, "4", false), (1/5, "5", false),
   (1/6, "6", false), (1/7, "7", false), (1/8, "8", false), (1/9, "9", false)]

/-- The 17 scale values offered by every comparison group, in source order. -/
def scaleList : List ℚ :=
  [9, 8, 7, 6, 5, 4, 3, 2, 1, 1/2, 1/3, 1/4, 1/5, 1/6, 1/7, 1/8, 1/9]

/-- In-place update `matrix[i][j] = v` of a row-list matrix, as performed on
the JavaScript array of arrays (an out-of-bounds index leaves the matrix
unchanged, which never happens on the in-bounds indices used by the code). -/
def setMat (m : List (List ℚ)) (i j : Nat) (v : ℚ) : List (List ℚ) :=
  m.set i ((m.getD i []).set j v)

/-- Entry read `matrix[i][j]` of a row-list matrix. -/
def entry (m : List (List ℚ)) (i j : Nat) : ℚ :=
  (m.getD i []).getD j 0

/-- Iteration order of the two nested loops `for i in 0..n-1, for j in
i+1..n-1` shared by `generatePairwiseComparisons` and `getPairwiseMatrix`:
the upper-triangle index pairs in lexicographic order. -/
def upperPairs (n : Nat) : List (Nat × Nat) :=
  ((List.range n).map
    (fun i => (List.range' (i + 1) (n - (i + 1))).map (fun j => (i, j)))).flatten

/-- Body of the matrix-filling loop of `getPairwiseMatrix` for one pair
`(i, j)`: when a radio of group `compare_i_j` is checked with value `v`,
set `matrix[i][j] = v` and `matrix[j][i] = 1 / v`; otherwise do nothing. -/
def applySel (sel : Selection) (m : List (List ℚ)) (p : Nat × Nat) :
    List (List ℚ) :=
  match sel p.1 p.2 with
  | some v => setMat (setMat m p.1 p.2 v) p.2 p.1 (1 / v)
  | none => m

/-- Strict lexicographic order on index pairs. -/
def lexLt (p q : Nat × Nat) : Prop :=
  p.1 < q.1 ∨ (p.1 = q.1 ∧ p.2 < q.2)

/-- Modelled: JavaScript `(x).toFixed(2)`, abstracted to an exact rendering
of the rational value; no claim depends on the digit format. -/
def toFixed2 (q : ℚ) : String :=
  toString q

/-- Modelled: JavaScript `(x).toFixed(4)`, abstracted to an exact rendering
of the rational value; no claim depends on the digit format. -/
def toFixed4 (q : ℚ) : String :=
  toString q

/-- Modelled: `JSON.stringify` on an array of numbers, abstracted to an
exact rendering of the rational values; no claim depends on the format. -/
def jsonNums (xs : List ℚ) : String :=
  "[" ++ (String.intercalate "," (xs.map toString) ++ "]")

/-- Modelled: `JSON.stringify` on an array of strings (escaping of special
characters inside the names is not modelled; no claim depends on it). -/
def jsonStrs (xs : List String) : String :=
  "[" ++ (String.intercalate "," (xs.map (fun s => "\"" ++ (s ++ "\""))) ++ "]")

/-- One `localStorage.setItem(k, v)` call on the localStorage map. -/
def setItem (store : String → Option String) (k v : String) :
    String → Option String :=
  fun q => if q = k then some v else store q

/-- Initial chunk of the results html: `<h3>Criteria Weights</h3>`. -/
def headerChunk : String :=
  "<h3>Criteria Weights</h3>"

/-- Per-criterion chunk appended to the results html by the forEach loop of
`displayResults`. -/
def weightChunk (criterion weightPct : String) : String :=
  "\n            <div class=\"weight-item\">\n                <strong>" ++
    (criterion ++ ("</strong>\n                <span>" ++
      (weightPct ++ "%</span>\n            </div>\n        ")))

/-- Consistency-ratio chunk appended to the results html by
`displayResults`. -/
def consistencyChunk (crClass crText crMessage : String) : String :=
  "\n        <div class=\"consistency " ++
    (crClass ++ ("\">\n            Consistency Ratio: " ++
      (crText ++ ("<br>\n            " ++
        (crMessage ++ "\n        </div>\n    ")))))

/-- Chunk appended to the results html when the matrix is consistent:
the link to the SAW ranking page. -/
def nextLinkChunk : String :=
  "\n            <a href=\"/saw\" class=\"next-btn\">Next: SAW Ranking</a>\n        "

end SteamAhp

namespace SteamAhp.Ahpjs

/-- Hardcoded criteria list of `src/static/js/ahp.js` lines 2-12
(a `const`, and nothing in the file mutates it). -/
def criteria : List String :=
  ["Price",
   "Recommendations Total",
   "Release Year",
   "Min RAM",
   "CPU Min",
   "GPU Min",
   "Steam Rating Label",
   "Steam Chart Player 30d Avg",
   "Steam Chart Current Player"]

/-- `createRadio` of ahp.js lines 17-30: builds the html of one radio
button of a comparison group. -/
def createRadio (name : String) (value : ℚ) (text : String)
    (isChecked : Bool) : String :=
  let radioId := "radio_" ++ (name ++ ("_" ++ replaceFirstDot (numToString value)))
  let checkedAttr := if isChecked then "checked" else ""
  let labelClass := if value = 1 then "center-label" else ""
  "\n        <div>\n            <input type=\"radio\" id=\"" ++
    (radioId ++ ("\" name=\"" ++
      (name ++ ("\" value=\"" ++
        (numToString value ++ ("\" " ++
          (checkedAttr ++ (">\n            <label for=\"" ++
            (radioId ++ ("\" class=\"" ++
              (labelClass ++ ("\">\n                <span>" ++
                (text ++
                  "</span>\n            </label>\n        </div>\n    ")))))))))))))

/-- Radio-scale block of one comparison row: the 17 `createRadio` calls of
ahp.js lines 57-73, joined by the template whitespace between them. -/
def radioScale (name : String) : String :=
  String.intercalate "\n                        "
    (scaleEntries.map (fun o => createRadio name o.1 o.2.1 o.2.2))

/-- Html of one comparison row (body of the nested loops of
`generatePairwiseComparisons`, ahp.js lines 50-76). -/
def comparisonRow (crit : List String) (p : Nat × Nat) : String :=
  "\n                <div class=\"comparison-row\">\n                    <div class=\"comparison-row-header\">\n                        <strong class=\"compare-label-left\">" ++
    (crit.getD p.1 "" ++ ("</strong>\n                        <strong class=\"compare-label-right\">" ++
      (crit.getD p.2 "" ++ ("</strong>\n                    </div>\n                    <div class=\"radio-scale\">\n                        " ++
        (radioScale (compareName p) ++
          "\n                    </div>\n                </div>\n            ")))))

/-- `generatePairwiseComparisons` of ahp.js lines 33-82: with fewer than 2
criteria it alerts and returns; otherwise it fills the comparison container
with one comparison row per upper-triangle pair and shows the section. -/
def generatePairwiseComparisons (crit : List String) (ui : UIState) : UIState :=
  if crit.length < 2 then
    { ui with alerts := ui.alerts ++ ["Please add at least 2 criteria"] }
  else
    { container :=
        String.join ((upperPairs crit.length).map (comparisonRow crit)),
      pairwiseVisible := true,
      alerts := ui.alerts }

/-- `getPairwiseMatrix` of ahp.js lines 85-101: starts from an n×n matrix
filled with 1 and, for every upper-triangle pair with a checked radio,
writes the value and its reciprocal. -/
def getPairwiseMatrix (crit : List String) (sel : Selection) :
    List (List ℚ) :=
  (upperPairs crit.length).foldl (applySel sel)
    (List.replicate crit.length (List.replicate crit.length 1))

/-- `displayResults` of ahp.js lines 135-174: rebuilds the results html
(kept as the ordered list of appended chunks), persists the weights and
criteria to localStorage exactly when the response is consistent (in which
case the next-step link chunk is also appended), and shows the div. -/
def displayResults (st : ClientState) (data : AhpData) : ClientState :=
  let items := data.criteria.enum.map
    (fun q => weightChunk q.2 (toFixed2 (data.weights.getD q.1 0 * 100)))
  let crClass := if data.is_consistent then "good" else "bad"
  let crMessage :=
    if data.is_consistent then "Matrix is consistent (CR < 0.1)"
    else "Matrix is inconsistent (CR >= 0.1). Please review your comparisons."
  let chunks := headerChunk :: items ++
    [consistencyChunk crClass (toFixed4 data.consistency_ratio) crMessage]
  if data.is_consistent then
    { st with
      store := setItem
        (setItem st.store "ahp_weights" (jsonNums data.weights))
        "ahp_criteria" (jsonStrs data.criteria),
      resultsChunks := chunks ++ [nextLinkChunk],
      resultsVisible := true }
  else
    { st with resultsChunks := chunks, resultsVisible := true }

/-- Code inside the try block of `calculateWeights` after the fetch and the
JSON parse (abstracted by the `FetchOutcome`): the three-way strict-equality
branch on `data.success` of ahp.js lines 121-128. -/
def calcBody (st : ClientState) (o : FetchOutcome) : Except String ClientState :=
  match o with
  | FetchOutcome.thrown msg => Except.error msg
  | FetchOutcome.ok data =>
    match data.success with
    | some true =>
        Except.ok (displayResults { st with weights := data.weights } data)
    | some false =>
        Except.ok { st with alerts := st.alerts ++ ["Error: " ++ data.error] }
    | none =>
        Except.ok { st with alerts := st.alerts ++ ["Unexpected response format"] }

/-- Whole try block of `calculateWeights` (ahp.js lines 107-128), returning
the exception when one is raised inside it. -/
def calculateWeightsTry (crit : List String) (sel : Selection)
    (st : ClientState) (o : FetchOutcome) :
    Except String (RequestBody × ClientState) :=
  (calcBody st o).map
    (fun s => ({ criteria := crit, pairwise_matrix := getPairwiseMatrix crit sel }, s))

/-- `calculateWeights` of ahp.js lines 104-132: computes the matrix, posts
`{criteria, pairwise_matrix}` (returned as the first component), and handles
the response; the catch clause turns every exception raised inside the try
block into an `alert('Error calculating weights: ' + error)`. -/
def calculateWeights (crit : List String) (sel : Selection)
    (st : ClientState) (o : FetchOutcome) : RequestBody × ClientState :=
  match calculateWeightsTry crit sel st o with
  | Except.ok r => r
  | Except.error e =>
      ({ criteria := crit, pairwise_matrix := getPairwiseMatrix crit sel },
       { st with alerts := st.alerts ++ ["Error calculating weights: " ++ e] })

end SteamAhp.Ahpjs

namespace SteamAhp.Part000

/-- Initial value of the mutable `criteria` list of `src/unnamed/part_000`
lines 1-3 (a `let`, mutated by `addCriteria` and `removeCriteria`). -/
def criteria : List String :=
  ["Price", "Recommendations Total", "Release Year", "Min RAM", "CPU Min",
   "GPU Min", "Steam Rating Label", "Steam Chart Player 30d Avg",
   "Steam Chart Current Player"]

/-- `createRadio` of part_000 lines 6-19 (character-identical to the ahp.js
version). -/
def createRadio (name : String) (value : ℚ) (text : String)
    (isChecked : Bool) : String :=
  let radioId := "radio_" ++ (name ++ ("_" ++ replaceFirstDot (numToString value)))
  let checkedAttr := if isChecked then "checked" else ""
  let labelClass := if value = 1 then "center-label" else ""
  "\n        <div>\n            <input type=\"radio\" id=\"" ++
    (radioId ++ ("\" name=\"" ++
      (name ++ ("\" value=\"" ++
        (numToString value ++ ("\" " ++
          (checkedAttr ++ (">\n            <label for=\"" ++
            (radioId ++ ("\" class=\"" ++
              (labelClass ++ ("\">\n                <span>" ++
                (text ++
                  "</span>\n            </label>\n        </div>\n    ")))))))))))))

/-- `addCriteria` of part_000 lines 21-30: trims the input and appends it
when it is non-empty and not already present. -/
def addCriteria (cs : List String) (input : String) : List String :=
  let criterion := jsTrim input
  if (criterion != "") && !(cs.contains criterion) then cs ++ [criterion] else cs

/-- `removeCriteria` of part_000 lines 32-37: takes the trimmed text of the
clicked item's span and filters out every criterion equal to it. -/
def removeCriteria (cs : List String) (text : String) : List String :=
  let criterion := jsTrim text
  cs.filter (fun c => c != criterion)

/-- One user action on the criteria list. -/
inductive CritOp where
  | add (input : String)
  | remove (text : String)

/-- Effect of one criteria-list action. -/
def applyOp (cs : List String) : CritOp → List String
  | CritOp.add input => addCriteria cs input
  | CritOp.remove text => removeCriteria cs text

/-- Effect of a sequence of criteria-list actions. -/
def applyOps (cs : List String) (ops : List CritOp) : List String :=
  ops.foldl applyOp cs

/-- Radio-scale block of one comparison row of part_000 (lines 71-87). -/
def radioScale (name : String) : String :=
  String.intercalate "\n                        "
    (scaleEntries.map (fun o => createRadio name o.1 o.2.1 o.2.2))

/-- Html of one comparison row of part_000 (lines 64-90). -/
def comparisonRow (crit : List String) (p : Nat × Nat) : String :=
  "\n                <div class=\"comparison-row\">\n                    <div class=\"comparison-row-header\">\n                        <strong class=\"compare-label-left\">" ++
    (crit.getD p.1 "" ++ ("</strong>\n                        <strong class=\"compare-label-right\">" ++
      (crit.getD p.2 "" ++ ("</strong>\n                    </div>\n                    <div class=\"radio-scale\">\n                        " ++
        (radioScale (compareName p) ++
          "\n                    </div>\n                </div>\n            ")))))

/-- `generatePairwiseComparisons` of part_000 lines 49-96. -/
def generatePairwiseComparisons (crit : List String) (ui : UIState) : UIState :=
  if crit.length < 2 then
    { ui with alerts := ui.alerts ++ ["Please add at least 2 criteria"] }
  else
    { container :=
        String.join ((upperPairs crit.length).map (comparisonRow crit)),
      pairwiseVisible := true,
      alerts := ui.alerts }

/-- `getPairwiseMatrix` of part_000 lines 98-114. -/
def getPairwiseMatrix (crit : List String) (sel : Selection) :
    List (List ℚ) :=
  (upperPairs crit.length).foldl (applySel sel)
    (List.replicate crit.length (List.replicate crit.length 1))

/-- `displayResults` of part_000 lines 146-184. -/
def displayResults (st : ClientState) (data : AhpData) : ClientState :=
  let items := data.criteria.enum.map
    (fun q => weightChunk q.2 (toFixed2 (data.weights.getD q.1 0 * 100)))
  let crClass := if data.is_consistent then "good" else "bad"
  let crMessage :=
    if data.is_consistent then "Matrix is consistent (CR < 0.1)"
    else "Matrix is inconsistent (CR >= 0.1). Please review your comparisons."
  let chunks := headerChunk :: items ++
    [consistencyChunk crClass (toFixed4 data.consistency_ratio) crMessage]
  if data.is_consistent then
    { st with
      store := setItem
        (setItem st.store "ahp_weights" (jsonNums data.weights))
        "ahp_criteria" (jsonStrs data.criteria),
      resultsChunks := chunks ++ [nextLinkChunk],
      resultsVisible := true }
  else
    { st with resultsChunks := chunks, resultsVisible := true }

/-- Response-branch of `calculateWeights` of part_000 lines 133-140. -/
def calcBody (st : ClientState) (o : FetchOutcome) : Except String ClientState :=
  match o with
  | FetchOutcome.thrown msg => Except.error msg
  | FetchOutcome.ok data =>
    match data.success with
    | some true =>
        Except.ok (displayResults { st with weights := data.weights } data)
    | some false =>
        Except.ok { st with alerts := st.alerts ++ ["Error: " ++ data.error] }
    | none =>
        Except.ok { st with alerts := st.alerts ++ ["Unexpected response format"] }

/-- Try block of `calculateWeights` of part_000 lines 119-140. -/
def calculateWeightsTry (crit : List String) (sel : Selection)
    (st : ClientState) (o : FetchOutcome) :
    Except String (RequestBody × ClientState) :=
  (calcBody st o).map
    (fun s => ({ criteria := crit, pairwise_matrix := getPairwiseMatrix crit sel }, s))

/-- `calculateWeights` of part_000 lines 116-144. -/
def calculateWeights (crit : List String) (sel : Selection)
    (st : ClientState) (o : FetchOutcome) : RequestBody × ClientState :=
  match calculateWeightsTry crit sel st o with
  | Except.ok r => r
  | Except.error e =>
      ({ criteria := crit, pairwise_matrix := getPairwiseMatrix crit sel },
       { st with alerts := st.alerts ++ ["Error calculating weights: " ++ e] })

end SteamAhp.Part000

namespace SteamAhp

/-- Squareness predicate: `m` is an n×n row-list matrix. -/
def SquareN (m : List (List ℚ)) (n : Nat) : Prop :=
  m.length = n ∧ ∀ row ∈ m, row.length = n

/-- Nodup-and-nonempty invariant of the criteria list. -/
def GoodCriteria (cs : List String) : Prop :=
  cs.Nodup ∧ ∀ c ∈ cs, c ≠ ""

/-- Selection with no radio checked anywhere. -/
def selNone : Selection := fun _ _ => none

/-- Selection checking value 3 for the pair (0, 1) and nothing else. -/
def selEx : Selection := fun i j => if i = 0 ∧ j = 1 then some 3 else none

/-- Empty page state. -/
def uiEmpty : UIState :=
  { container := "", pairwiseVisible := false, alerts := [] }

/-- Empty localStorage. -/
def storeEmpty : String → Option String := fun _ => none

/-- Fresh client state. -/
def stEmpty : ClientState :=
  { weights := [], store := storeEmpty, alerts := [], resultsChunks := [],
    resultsVisible := false }

/-- Sample consistent server response. -/
def dataOkEx : AhpData :=
  { success := some true, criteria := ["A", "B"], weights := [1/2, 1/2],
    consistency_ratio := 0, is_consistent := true, error := "" }

/-- Sample inconsistent server response. -/
def dataBadEx : AhpData :=
  { success := some true, criteria := ["A", "B"], weights := [1/2, 1/2],
    consistency_ratio := 1, is_consistent := false, error := "" }

/-- Sample failure response. -/
def dataErrEx : AhpData :=
  { success := some false, criteria := [], weights := [],
    consistency_ratio := 0, is_consistent := false, error := "bad matrix" }

/-- Sample malformed response (success field neither true nor false). -/
def dataOddEx : AhpData :=
  { success := none, criteria := [], weights := [],
    consistency_ratio := 0, is_consistent := false, error := "" }

end SteamAhp

namespace SteamAhp

/-- Rows of an n×n matrix have length n. -/
lemma length_getD_of_squareN {m : List (List ℚ)} {n : Nat} (h : SquareN m n)
    {i : Nat} (hi : i < n) : (m.getD i []).length = n := by
  have hlen : i < m.length := by rw [h.1]; exact hi
  rw [List.getD_eq_getElem?_getD, List.getElem?_eq_getElem hlen]
  exact h.2 _ (List.getElem_mem _)

/-- The in-place update preserves squareness. -/
lemma squareN_setMat {m : List (List ℚ)} {n : Nat} (h : SquareN m n)
    (i j : Nat) (v : ℚ) : SquareN (setMat m i j v) n := by
  by_cases hi : i < m.length
  · refine ⟨by rw [setMat, List.length_set]; exact h.1, ?_⟩
    intro row hrow
    rcases List.mem_or_eq_of_mem_set hrow with hmem | hset
    · exact h.2 _ hmem
    · rw [hset, List.length_set]
      exact length_getD_of_squareN h (h.1 ▸ hi)
  · rw [setMat, List.set_eq_of_length_le (Nat.le_of_not_lt hi)]
    exact h

/-- `applySel` preserves squareness. -/
lemma squareN_applySel {m : List (List ℚ)} {n : Nat} (h : SquareN m n)
    (sel : Selection) (p : Nat × Nat) : SquareN (applySel sel m p) n := by
  rw [applySel]
  cases sel p.1 p.2 with
  | none => exact h
  | some v => exact squareN_setMat (squareN_setMat h _ _ _) _ _ _

/-- The matrix-filling fold preserves squareness. -/
lemma squareN_foldl {n : Nat} (sel : Selection) (L : List (Nat × Nat)) :
    ∀ {m : List (List ℚ)}, SquareN m n → SquareN (L.foldl (applySel sel) m) n := by
  induction L with
  | nil => intro m h; exact h
  | cons p L ih => intro m h; exact ih (squareN_applySel h sel p)

/-- Reading a just-written position of a list gives the written value. -/
lemma getD_set_self {α : Type} (l : List α) (i : Nat) (a : α) (d : α)
    (h : i < l.length) : (l.set i a).getD i d = a := by
  rw [List.getD_eq_getElem?_getD, List.getElem?_set_self h]
  rfl

/-- Reading any other position of a list after a write is unchanged. -/
lemma getD_set_ne {α : Type} (l : List α) {i j : Nat} (a : α) (d : α)
    (h : i ≠ j) : (l.set i a).getD j d = l.getD j d := by
  rw [List.getD_eq_getElem?_getD, List.getElem?_set_ne h,
    List.getD_eq_getElem?_getD]

/-- Setting entry (i, j) writes v there (in bounds). -/
lemma entry_setMat_self {m : List (List ℚ)} {n : Nat} (h : SquareN m n)
    {i j : Nat} (hi : i < n) (hj : j < n) (v : ℚ) :
    entry (setMat m i j v) i j = v := by
  have hil : i < m.length := h.1 ▸ hi
  have hjl : j < (m.getD i []).length := by
    rw [length_getD_of_squareN h hi]; exact hj
  rw [entry, setMat, getD_set_self _ _ _ _ hil, getD_set_self _ _ _ _ hjl]

/-- Setting entry (i, j) leaves every other entry unchanged. -/
lemma entry_setMat_ne {m : List (List ℚ)} {i j a b : Nat}
    (hne : (a, b) ≠ (i, j)) (v : ℚ) :
    entry (setMat m i j v) a b = entry m a b := by
  rcases eq_or_ne a i with rfl | hai
  · have hbj : b ≠ j := fun hbj => hne (by rw [hbj])
    by_cases hl : a < m.length
    · rw [entry, entry, setMat, getD_set_self _ _ _ _ hl,
        getD_set_ne _ _ _ (Ne.symm hbj)]
    · rw [setMat, List.set_eq_of_length_le (Nat.le_of_not_lt hl)]
  · rw [entry, entry, setMat, getD_set_ne _ _ _ (Ne.symm hai)]

/-- `applySel` for the pair p leaves entries outside {(p₁,p₂), (p₂,p₁)}
unchanged. -/
lemma entry_applySel_ne {m : List (List ℚ)} (sel : Selection)
    {p : Nat × Nat} {a b : Nat}
    (h1 : (a, b) ≠ (p.1, p.2)) (h2 : (a, b) ≠ (p.2, p.1)) :
    entry (applySel sel m p) a b = entry m a b := by
  rw [applySel]
  cases sel p.1 p.2 with
  | none => rfl
  | some v => rw [entry_setMat_ne h2, entry_setMat_ne h1]

/-- Distinctness of index pairs reduces to component facts. -/
lemma pair_ne_iff {a b c d : Nat} : (a, b) ≠ (c, d) ↔ ¬(a = c ∧ b = d) := by
  constructor
  · intro h hcd
    exact h (by rw [hcd.1, hcd.2])
  · intro h e
    exact h ⟨congrArg Prod.fst e, congrArg Prod.snd e⟩

/-- `applySel` writes the selected value at (p₁, p₂). -/
lemma entry_applySel_fst {m : List (List ℚ)} {n : Nat} (h : SquareN m n)
    (sel : Selection) {p : Nat × Nat} (hp : p.1 < p.2) (hpn : p.2 < n) :
    entry (applySel sel m p) p.1 p.2 =
      match sel p.1 p.2 with
      | some v => v
      | none => entry m p.1 p.2 := by
  rw [applySel]
  cases sel p.1 p.2 with
  | none => rfl
  | some v =>
    rw [entry_setMat_ne (pair_ne_iff.mpr (by omega)),
      entry_setMat_self h (by omega) hpn]

/-- `applySel` writes the reciprocal at (p₂, p₁). -/
lemma entry_applySel_snd {m : List (List ℚ)} {n : Nat} (h : SquareN m n)
    (sel : Selection) {p : Nat × Nat} (hp : p.1 < p.2) (hpn : p.2 < n) :
    entry (applySel sel m p) p.2 p.1 =
      match sel p.1 p.2 with
      | some v => 1 / v
      | none => entry m p.2 p.1 := by
  rw [applySel]
  cases sel p.1 p.2 with
  | none => rfl
  | some v =>
    exact entry_setMat_self (squareN_setMat h _ _ _) hpn (by omega) _

/-- Diagonal entries are never touched by the fold. -/
lemma entry_foldl_diag (sel : Selection) (L : List (Nat × Nat))
    (hL : ∀ p ∈ L, p.1 < p.2) :
    ∀ (m : List (List ℚ)) (i : Nat),
      entry (L.foldl (applySel sel) m) i i = entry m i i := by
  induction L with
  | nil => intro m i; rfl
  | cons p L ih =>
    intro m i
    have hp : p.1 < p.2 := hL p (by simp)
    rw [List.foldl_cons, ih (fun q hq => hL q (by simp [hq]))]
    exact entry_applySel_ne sel (pair_ne_iff.mpr (by omega))
      (pair_ne_iff.mpr (by omega))

/-- Characterization of the two entries of an upper-triangle pair after the
matrix-filling fold, provided every pair of the fold list is strictly upper
triangular, in bounds and occurs at most once. -/
lemma entry_foldl_applySel {n : Nat} (sel : Selection) :
    ∀ (L : List (Nat × Nat)), (∀ p ∈ L, p.1 < p.2 ∧ p.2 < n) → L.Nodup →
    ∀ (m : List (List ℚ)), SquareN m n → ∀ (i j : Nat), i < j → j < n →
    (entry (L.foldl (applySel sel) m) i j =
      if (i, j) ∈ L then
        match sel i j with
        | some v => v
        | none => entry m i j
      else entry m i j)
    ∧ (entry (L.foldl (applySel sel) m) j i =
      if (i, j) ∈ L then
        match sel i j with
        | some v => 1 / v
        | none => entry m j i
      else entry m j i) := by
  intro L
  induction L with
  | nil =>
    intro _ _ m _ i j _ _
    simp
  | cons p L ih =>
    intro hL hnd m hm i j hij hjn
    obtain ⟨hp1, hp2⟩ : p.1 < p.2 ∧ p.2 < n := hL p (by simp)
    have hL' : ∀ q ∈ L, q.1 < q.2 ∧ q.2 < n := fun q hq => hL q (by simp [hq])
    have hnd' : L.Nodup := hnd.of_cons
    have hm' : SquareN (applySel sel m p) n := squareN_applySel hm sel p
    have hrec := ih hL' hnd' (applySel sel m p) hm' i j hij hjn
    by_cases hpij : p = (i, j)
    · subst hpij
      have hnotin : ((i, j) : Nat × Nat) ∉ L := (List.nodup_cons.mp hnd).1
      have hfst := entry_applySel_fst hm sel (p := (i, j)) hij hjn
      have hsnd := entry_applySel_snd hm sel (p := (i, j)) hij hjn
      rw [List.foldl_cons]
      constructor
      · rw [hrec.1, if_neg hnotin, if_pos (by simp), hfst]
      · rw [hrec.2, if_neg hnotin, if_pos (by simp), hsnd]
    · have e1 : ((i, j) : Nat × Nat) ≠ (p.1, p.2) :=
        pair_ne_iff.mpr (fun hc => hpij (Prod.ext hc.1.symm hc.2.symm))
      have e2 : ((i, j) : Nat × Nat) ≠ (p.2, p.1) :=
        pair_ne_iff.mpr (by omega)
      have e3 : ((j, i) : Nat × Nat) ≠ (p.1, p.2) :=
        pair_ne_iff.mpr (by omega)
      have e4 : ((j, i) : Nat × Nat) ≠ (p.2, p.1) :=
        pair_ne_iff.mpr (fun hc => hpij (Prod.ext hc.2.symm hc.1.symm))
      rw [List.foldl_cons]
      by_cases hmemL : ((i, j) : Nat × Nat) ∈ L
      · have hmemC : ((i, j) : Nat × Nat) ∈ p :: L := List.mem_cons_of_mem _ hmemL
        constructor
        · rw [hrec.1, if_pos hmemL, if_pos hmemC]
          cases sel i j with
          | some v => rfl
          | none => exact entry_applySel_ne sel e1 e2
        · rw [hrec.2, if_pos hmemL, if_pos hmemC]
          cases sel i j with
          | some v => rfl
          | none => exact entry_applySel_ne sel e3 e4
      · have hmemC : ((i, j) : Nat × Nat) ∉ p :: L := by
          rw [List.mem_cons]
          rintro (hc | hc)
          · exact hpij hc.symm
          · exact hmemL hc
        constructor
        · rw [hrec.1, if_neg hmemL, if_neg hmemC]
          exact entry_applySel_ne sel e1 e2
        · rw [hrec.2, if_neg hmemL, if_neg hmemC]
          exact entry_applySel_ne sel e3 e4

end SteamAhp

namespace SteamAhp

/-- Membership in the loop pair list is exactly strict upper-triangle
membership. -/
lemma mem_upperPairs {n : Nat} {p : Nat × Nat} :
    p ∈ upperPairs n ↔ p.1 < p.2 ∧ p.2 < n := by
  cases p with
  | mk a b =>
    simp only [upperPairs, List.mem_flatten, List.mem_map, List.mem_range]
    constructor
    · rintro ⟨l, ⟨i, hi, rfl⟩, hmem⟩
      obtain ⟨j, hj, hpair⟩ := List.mem_map.mp hmem
      obtain ⟨hj1, hj2⟩ := List.mem_range'_1.mp hj
      obtain ⟨rfl, rfl⟩ : i = a ∧ j = b := by
        constructor
        · exact congrArg Prod.fst hpair
        · exact congrArg Prod.snd hpair
      constructor
      · omega
      · omega
    · rintro ⟨hab, hbn⟩
      refine ⟨(List.range' (a + 1) (n - (a + 1))).map (fun j => (a, j)),
        ⟨a, by omega, rfl⟩, ?_⟩
      exact List.mem_map.mpr ⟨b, List.mem_range'_1.mpr (by omega), rfl⟩

/-- The loop pair list is sorted in strict lexicographic order. -/
lemma pairwise_lexLt_upperPairs (n : Nat) :
    (upperPairs n).Pairwise lexLt := by
  rw [upperPairs, List.pairwise_flatten]
  constructor
  · intro l hl
    obtain ⟨i, _, rfl⟩ := List.mem_map.mp hl
    rw [List.pairwise_map]
    exact (List.pairwise_lt_range' _ _).imp (fun h => Or.inr ⟨rfl, h⟩)
  · rw [List.pairwise_map]
    refine (List.pairwise_lt_range n).imp ?_
    intro a b hab x hx y hy
    obtain ⟨jx, _, rfl⟩ := List.mem_map.mp hx
    obtain ⟨jy, _, rfl⟩ := List.mem_map.mp hy
    exact Or.inl hab

/-- The loop pair list visits each pair at most once. -/
lemma nodup_upperPairs (n : Nat) : (upperPairs n).Nodup := by
  refine (pairwise_lexLt_upperPairs n).imp ?_
  intro a b hab
  rcases hab with h | ⟨_, h⟩
  · exact fun e => absurd (congrArg Prod.fst e) (by omega)
  · exact fun e => absurd (congrArg Prod.snd e) (by omega)

/-- Every pair of the loop pair list is strictly upper triangular and in
bounds. -/
lemma upperPairs_bounds {n : Nat} : ∀ p ∈ upperPairs n, p.1 < p.2 ∧ p.2 < n :=
  fun _ hp => mem_upperPairs.mp hp

/-- Counting the loop pair list (times two, to avoid division). -/
lemma two_mul_length_upperPairs (n : Nat) :
    2 * (upperPairs n).length = n * (n - 1) := by
  have hlen : ∀ m : Nat, (upperPairs m).length =
      ((List.range m).map (fun i => m - (i + 1))).sum := by
    intro m
    simp [upperPairs, List.length_flatten, List.map_map, Function.comp_def]
  induction n with
  | zero => rfl
  | succ m ih =>
    have hstep : (upperPairs (m + 1)).length = m + (upperPairs m).length := by
      rw [hlen, hlen, List.range_succ_eq_map, List.map_cons, List.sum_cons,
        List.map_map]
      have hfun : ((fun i => m + 1 - (i + 1)) ∘ (fun i => i + 1)) =
          (fun i => m - (i + 1)) := by
        funext i
        simp only [Function.comp_def]
        omega
      rw [hfun]
      omega
    rw [hstep, Nat.mul_add, ih]
    cases m with
    | zero => rfl
    | succ k =>
      simp only [Nat.add_sub_cancel]
      ring

/-- Reading an in-bounds position of a replicate list. -/
lemma getD_replicate_of_lt {α : Type} (a d : α) {n i : Nat} (h : i < n) :
    (List.replicate n a).getD i d = a := by
  rw [List.getD_eq_getElem?_getD, List.getElem?_replicate, if_pos h]
  rfl

/-- Entry of the all-ones initial matrix. -/
lemma entry_replicate_one {n i j : Nat} (hi : i < n) (hj : j < n) :
    entry (List.replicate n (List.replicate n (1 : ℚ))) i j = 1 := by
  rw [entry, getD_replicate_of_lt _ _ hi, getD_replicate_of_lt _ _ hj]

/-- The initial matrix is square. -/
lemma squareN_replicate (n : Nat) :
    SquareN (List.replicate n (List.replicate n (1 : ℚ))) n := by
  constructor
  · exact List.length_replicate ..
  · intro row hrow
    rw [List.eq_of_mem_replicate hrow]
    exact List.length_replicate ..

/-- Closed form of `getPairwiseMatrix` (ahp.js): entry (i, j) is the checked
value of group `compare_i_j` above the diagonal, its reciprocal below, and 1
on the diagonal or when no radio of the group is checked. -/
lemma entry_getPairwiseMatrix (crit : List String) (sel : Selection)
    {i j : Nat} (hi : i < crit.length) (hj : j < crit.length) :
    entry (Ahpjs.getPairwiseMatrix crit sel) i j =
      if i < j then
        match sel i j with
        | some v => v
        | none => 1
      else if j < i then
        match sel j i with
        | some v => 1 / v
        | none => 1
      else 1 := by
  rcases Nat.lt_trichotomy i j with hij | hij | hij
  · have h := (entry_foldl_applySel sel (upperPairs crit.length)
      upperPairs_bounds (nodup_upperPairs _) _ (squareN_replicate _) i j hij hj).1
    rw [Ahpjs.getPairwiseMatrix, h, if_pos (mem_upperPairs.mpr ⟨hij, hj⟩),
      if_pos hij]
    cases sel i j with
    | some v => rfl
    | none => exact entry_replicate_one hi hj
  · subst hij
    rw [Ahpjs.getPairwiseMatrix,
      entry_foldl_diag sel _ (fun p hp => (upperPairs_bounds p hp).1) _ i,
      entry_replicate_one hi hi]
    simp
  · have h := (entry_foldl_applySel sel (upperPairs crit.length)
      upperPairs_bounds (nodup_upperPairs _) _ (squareN_replicate _) j i hij hi).2
    rw [Ahpjs.getPairwiseMatrix, h, if_pos (mem_upperPairs.mpr ⟨hij, hi⟩),
      if_neg (by omega), if_pos hij]
    cases sel j i with
    | some v => rfl
    | none => exact entry_replicate_one hi hj

/-- The produced matrix is square of the criteria count. -/
lemma squareN_getPairwiseMatrix (crit : List String) (sel : Selection) :
    SquareN (Ahpjs.getPairwiseMatrix crit sel) crit.length :=
  squareN_foldl sel _ (squareN_replicate _)

end SteamAhp

namespace SteamAhp

/-- Every scale value offered by the UI is strictly positive. -/
lemma scaleList_pos : ∀ v ∈ scaleList, 0 < v := by
  intro v hv
  simp only [scaleList, List.mem_cons, List.not_mem_nil, or_false] at hv
  rcases hv with rfl | rfl | rfl | rfl | rfl | rfl | rfl | rfl | rfl | rfl |
    rfl | rfl | rfl | rfl | rfl | rfl | rfl <;> norm_num

/-- The matrix-filling fold only consults the selection at the pairs of its
list. -/
lemma foldl_applySel_congr (sel sel' : Selection) :
    ∀ (L : List (Nat × Nat)), (∀ p ∈ L, sel p.1 p.2 = sel' p.1 p.2) →
    ∀ m, L.foldl (applySel sel) m = L.foldl (applySel sel') m := by
  intro L
  induction L with
  | nil => intro _ m; rfl
  | cons p L ih =>
    intro h m
    have hp : applySel sel m p = applySel sel' m p := by
      rw [applySel, applySel, h p (by simp)]
    rw [List.foldl_cons, List.foldl_cons, hp]
    exact ih (fun q hq => h q (by simp [hq])) _

/-- Two strings differing at some character position differ. -/
lemma string_ne_of_getElem?_ne {s t : String} (k : Nat)
    (h : s.data[k]? ≠ t.data[k]?) : s ≠ t :=
  fun e => h (by rw [e])

/-- A per-criterion chunk is never the next-step link chunk (they differ at
character position 14, before any interpolated data). -/
lemma weightChunk_ne_nextLink (c w : String) :
    weightChunk c w ≠ nextLinkChunk := by
  refine string_ne_of_getElem?_ne 14 ?_
  rw [weightChunk, String.data_append, List.getElem?_append,
    if_pos (by decide)]
  decide

/-- The consistency chunk is never the next-step link chunk (they differ at
character position 9, before any interpolated data). -/
lemma consistencyChunk_ne_nextLink (a b c : String) :
    consistencyChunk a b c ≠ nextLinkChunk := by
  refine string_ne_of_getElem?_ne 9 ?_
  rw [consistencyChunk, String.data_append, List.getElem?_append,
    if_pos (by decide)]
  decide

/-- The header chunk is never the next-step link chunk. -/
lemma headerChunk_ne_nextLink : headerChunk ≠ nextLinkChunk := by
  decide

/-- `addCriteria` preserves the nodup-and-nonempty invariant. -/
lemma goodCriteria_addCriteria {cs : List String} (h : GoodCriteria cs)
    (input : String) : GoodCriteria (Part000.addCriteria cs input) := by
  rw [Part000.addCriteria]
  by_cases hc : (jsTrim input != "") && !(cs.contains (jsTrim input))
  · rw [if_pos hc]
    simp only [Bool.and_eq_true, bne_iff_ne, Bool.not_eq_eq_eq_not,
      Bool.not_true] at hc
    have hnotmem : jsTrim input ∉ cs := by
      intro hmem
      have : cs.contains (jsTrim input) = true := List.elem_iff.mpr hmem
      rw [this] at hc
      exact Bool.noConfusion hc.2
    constructor
    · rw [List.nodup_append]
      refine ⟨h.1, List.nodup_singleton _, ?_⟩
      intro a ha hb
      rw [List.mem_singleton.mp hb] at ha
      exact hnotmem ha
    · intro c hcmem
      rcases List.mem_append.mp hcmem with hcs | hone
      · exact h.2 c hcs
      · rw [List.mem_singleton.mp hone]
        exact hc.1
  · rw [if_neg hc]
    exact h

/-- `removeCriteria` preserves the nodup-and-nonempty invariant. -/
lemma goodCriteria_removeCriteria {cs : List String} (h : GoodCriteria cs)
    (text : String) : GoodCriteria (Part000.removeCriteria cs text) := by
  rw [Part000.removeCriteria]
  constructor
  · exact h.1.filter _
  · intro c hc
    exact h.2 c (List.mem_of_mem_filter hc)

/-- Both per-operation updates preserve the invariant. -/
lemma goodCriteria_applyOp {cs : List String} (h : GoodCriteria cs)
    (op : Part000.CritOp) : GoodCriteria (Part000.applyOp cs op) := by
  cases op with
  | add input => exact goodCriteria_addCriteria h input
  | remove text => exact goodCriteria_removeCriteria h text

/-- The invariant survives any sequence of operations. -/
lemma goodCriteria_applyOps (ops : List Part000.CritOp) :
    ∀ {cs : List String}, GoodCriteria cs →
    GoodCriteria (Part000.applyOps cs ops) := by
  induction ops with
  | nil => intro cs h; exact h
  | cons op ops ih =>
    intro cs h
    exact ih (goodCriteria_applyOp h op)

/-- The initial criteria list of part_000 satisfies the invariant. -/
lemma goodCriteria_initial : GoodCriteria Part000.criteria := by
  constructor
  · decide
  · decide

end SteamAhp

namespace SteamAhp

/-- Weights global is untouched by rendering. -/
lemma displayResults_weights (st : ClientState) (data : AhpData) :
    (Ahpjs.displayResults st data).weights = st.weights := by
  rw [Ahpjs.displayResults]
  by_cases h : data.is_consistent <;> simp [h]

/-- Claim C1: for every criteria list of length n and every radio-selection
state, the matrix returned by `getPairwiseMatrix` is n×n, has 1 at every
diagonal entry, and satisfies m[j][i] = 1/m[i][j] for every pair of
in-bounds indices i, j. -/
theorem C1_matrix_reciprocal_invariants (crit : List String) (sel : Selection) :
    (Ahpjs.getPairwiseMatrix crit sel).length = crit.length
    ∧ (∀ row ∈ Ahpjs.getPairwiseMatrix crit sel, row.length = crit.length)
    ∧ (∀ i, i < crit.length →
        entry (Ahpjs.getPairwiseMatrix crit sel) i i = 1)
    ∧ (∀ i j, i < crit.length → j < crit.length →
        entry (Ahpjs.getPairwiseMatrix crit sel) j i =
          1 / entry (Ahpjs.getPairwiseMatrix crit sel) i j) := by
  obtain ⟨hlen, hrows⟩ := squareN_getPairwiseMatrix crit sel
  refine ⟨hlen, hrows, ?_, ?_⟩
  · intro i hi
    rw [entry_getPairwiseMatrix crit sel hi hi, if_neg (by omega),
      if_neg (by omega)]
  · intro i j hi hj
    rw [entry_getPairwiseMatrix crit sel hj hi,
      entry_getPairwiseMatrix crit sel hi hj]
    rcases Nat.lt_trichotomy i j with hij | hij | hij
    · rw [if_neg (by omega), if_pos hij, if_pos hij]
      cases sel i j with
      | some v => rfl
      | none => norm_num
    · subst hij
      rw [if_neg (by omega), if_neg (by omega)]
      norm_num
    · rw [if_pos hij, if_pos hij, if_neg (by omega)]
      cases sel j i with
      | some v => rw [one_div_one_div]
      | none => norm_num

/-- Witness for C1 at a concrete criteria list and selection. -/
theorem C1_matrix_reciprocal_invariants_witness :
    entry (Ahpjs.getPairwiseMatrix ["A", "B"] selEx) 0 0 = 1
    ∧ entry (Ahpjs.getPairwiseMatrix ["A", "B"] selEx) 1 0 =
        1 / entry (Ahpjs.getPairwiseMatrix ["A", "B"] selEx) 0 1 :=
  ⟨(C1_matrix_reciprocal_invariants ["A", "B"] selEx).2.2.1 0 (by decide),
   (C1_matrix_reciprocal_invariants ["A", "B"] selEx).2.2.2 0 1 (by decide)
     (by decide)⟩

/-- Claim C2: when every checked radio carries one of the 17 UI scale
values, every matrix entry is strictly positive, and is the default 1, a
scale value, or the reciprocal of a scale value. -/
theorem C2_matrix_entries_positive (crit : List String) (sel : Selection)
    (hsel : ∀ i j v, sel i j = some v → v ∈ scaleList) :
    ∀ i j, i < crit.length → j < crit.length →
      0 < entry (Ahpjs.getPairwiseMatrix crit sel) i j
      ∧ (entry (Ahpjs.getPairwiseMatrix crit sel) i j = 1
        ∨ entry (Ahpjs.getPairwiseMatrix crit sel) i j ∈ scaleList
        ∨ ∃ w ∈ scaleList,
            entry (Ahpjs.getPairwiseMatrix crit sel) i j = 1 / w) := by
  intro i j hi hj
  rw [entry_getPairwiseMatrix crit sel hi hj]
  rcases Nat.lt_trichotomy i j with hij | hij | hij
  · rw [if_pos hij]
    cases hv : sel i j with
    | none => exact ⟨by norm_num, Or.inl rfl⟩
    | some v =>
      have hmem := hsel i j v hv
      exact ⟨scaleList_pos v hmem, Or.inr (Or.inl hmem)⟩
  · subst hij
    rw [if_neg (by omega), if_neg (by omega)]
    exact ⟨by norm_num, Or.inl rfl⟩
  · rw [if_neg (by omega), if_pos hij]
    cases hv : sel j i with
    | none => exact ⟨by norm_num, Or.inl rfl⟩
    | some v =>
      have hmem := hsel j i v hv
      exact ⟨one_div_pos.mpr (scaleList_pos v hmem),
        Or.inr (Or.inr ⟨v, hmem, rfl⟩)⟩

/-- Witness for C2 at a concrete criteria list and selection. -/
theorem C2_matrix_entries_positive_witness :
    0 < entry (Ahpjs.getPairwiseMatrix ["A", "B"] selNone) 0 1 :=
  (C2_matrix_entries_positive ["A", "B"] selNone
    (fun i j v h => by simp [selNone] at h) 0 1 (by decide) (by decide)).1

/-- Claim C3: when no radio of the group for a pair (i, j) with i < j is
checked, both matrix[i][j] and matrix[j][i] keep the default value 1. -/
theorem C3_unchecked_pair_defaults_to_one (crit : List String)
    (sel : Selection) {i j : Nat} (hij : i < j) (hj : j < crit.length)
    (hnone : sel i j = none) :
    entry (Ahpjs.getPairwiseMatrix crit sel) i j = 1
    ∧ entry (Ahpjs.getPairwiseMatrix crit sel) j i = 1 := by
  have hi : i < crit.length := by omega
  constructor
  · rw [entry_getPairwiseMatrix crit sel hi hj, if_pos hij, hnone]
  · rw [entry_getPairwiseMatrix crit sel hj hi, if_neg (by omega),
      if_pos hij, hnone]

/-- Witness for C3 at a concrete criteria list and selection. -/
theorem C3_unchecked_pair_defaults_to_one_witness :
    entry (Ahpjs.getPairwiseMatrix ["A", "B"] selNone) 0 1 = 1
    ∧ entry (Ahpjs.getPairwiseMatrix ["A", "B"] selNone) 1 0 = 1 :=
  C3_unchecked_pair_defaults_to_one ["A", "B"] selNone (by decide) (by decide)
    rfl

/-- Claim C4: `displayResults` writes the weights and criteria to
localStorage under keys `ahp_weights` and `ahp_criteria` exactly when
`is_consistent` is true; when it is false, localStorage is unchanged and
the next-step link chunk is not rendered. -/
theorem C4_persist_iff_consistent (st : ClientState) (data : AhpData) :
    (data.is_consistent = true →
      (Ahpjs.displayResults st data).store "ahp_weights" =
          some (jsonNums data.weights)
      ∧ (Ahpjs.displayResults st data).store "ahp_criteria" =
          some (jsonStrs data.criteria)
      ∧ nextLinkChunk ∈ (Ahpjs.displayResults st data).resultsChunks)
    ∧ (data.is_consistent = false →
      (Ahpjs.displayResults st data).store = st.store
      ∧ nextLinkChunk ∉ (Ahpjs.displayResults st data).resultsChunks) := by
  constructor
  · intro h
    rw [Ahpjs.displayResults]
    simp only [h, if_true]
    refine ⟨?_, ?_, ?_⟩
    · simp [setItem]
    · simp [setItem]
    · simp
  · intro h
    rw [Ahpjs.displayResults]
    simp only [h, Bool.false_eq_true, if_false]
    refine ⟨by trivial, ?_⟩
    intro hmem
    rcases List.mem_cons.mp hmem with he | hmem2
    · exact headerChunk_ne_nextLink he.symm
    rcases List.mem_append.mp hmem2 with hitems | hcons
    · obtain ⟨q, _, he⟩ := List.mem_map.mp hitems
      exact weightChunk_ne_nextLink _ _ he
    · rw [List.mem_singleton] at hcons
      exact consistencyChunk_ne_nextLink _ _ _ hcons.symm

/-- Witness for C4 at concrete client states and responses. -/
theorem C4_persist_iff_consistent_witness :
    (Ahpjs.displayResults stEmpty dataOkEx).store "ahp_weights" =
        some (jsonNums dataOkEx.weights)
    ∧ (Ahpjs.displayResults stEmpty dataBadEx).store = stEmpty.store
    ∧ nextLinkChunk ∉ (Ahpjs.displayResults stEmpty dataBadEx).resultsChunks :=
  ⟨((C4_persist_iff_consistent stEmpty dataOkEx).1 rfl).1,
   ((C4_persist_iff_consistent stEmpty dataBadEx).2 rfl).1,
   ((C4_persist_iff_consistent stEmpty dataBadEx).2 rfl).2⟩

/-- Claim C5: `calculateWeights` branches exactly on the strict value of
`data.success`: true stores the weights and renders; false alerts with the
response error and leaves the weights global unchanged; anything else
alerts `Unexpected response format` and leaves the weights unchanged. -/
theorem C5_branches_on_success (crit : List String) (sel : Selection)
    (st : ClientState) (data : AhpData) :
    (data.success = some true →
      (Ahpjs.calculateWeights crit sel st (FetchOutcome.ok data)).2 =
          Ahpjs.displayResults { st with weights := data.weights } data
      ∧ (Ahpjs.calculateWeights crit sel st (FetchOutcome.ok data)).2.weights =
          data.weights)
    ∧ (data.success = some false →
      (Ahpjs.calculateWeights crit sel st (FetchOutcome.ok data)).2.weights =
          st.weights
      ∧ (Ahpjs.calculateWeights crit sel st (FetchOutcome.ok data)).2.alerts =
          st.alerts ++ ["Error: " ++ data.error])
    ∧ (data.success = none →
      (Ahpjs.calculateWeights crit sel st (FetchOutcome.ok data)).2.weights =
          st.weights
      ∧ (Ahpjs.calculateWeights crit sel st (FetchOutcome.ok data)).2.alerts =
          st.alerts ++ ["Unexpected response format"]) := by
  refine ⟨?_, ?_, ?_⟩
  · intro h
    constructor
    · simp only [Ahpjs.calculateWeights, Ahpjs.calculateWeightsTry,
        Ahpjs.calcBody, h, Except.map]
    · simp only [Ahpjs.calculateWeights, Ahpjs.calculateWeightsTry,
        Ahpjs.calcBody, h, Except.map]
      exact displayResults_weights _ _
  · intro h
    constructor <;>
      simp only [Ahpjs.calculateWeights, Ahpjs.calculateWeightsTry,
        Ahpjs.calcBody, h, Except.map]
  · intro h
    constructor <;>
      simp only [Ahpjs.calculateWeights, Ahpjs.calculateWeightsTry,
        Ahpjs.calcBody, h, Except.map]

/-- Witness for C5 at concrete responses for each branch. -/
theorem C5_branches_on_success_witness :
    (Ahpjs.calculateWeights ["A", "B"] selNone stEmpty
        (FetchOutcome.ok dataOkEx)).2.weights = dataOkEx.weights
    ∧ (Ahpjs.calculateWeights ["A", "B"] selNone stEmpty
        (FetchOutcome.ok dataErrEx)).2.alerts =
        stEmpty.alerts ++ ["Error: " ++ dataErrEx.error]
    ∧ (Ahpjs.calculateWeights ["A", "B"] selNone stEmpty
        (FetchOutcome.ok dataOddEx)).2.alerts =
        stEmpty.alerts ++ ["Unexpected response format"] :=
  ⟨((C5_branches_on_success ["A", "B"] selNone stEmpty dataOkEx).1 rfl).2,
   ((C5_branches_on_success ["A", "B"] selNone stEmpty dataErrEx).2.1 rfl).2,
   ((C5_branches_on_success ["A", "B"] selNone stEmpty dataOddEx).2.2 rfl).2⟩

/-- Claim C6: `calculateWeights` never propagates an exception: either its
try block succeeds and its result is returned, or the exception raised
inside the try block is converted by the catch clause into the
`Error calculating weights` alert. -/
theorem C6_no_uncaught_exception (crit : List String) (sel : Selection)
    (st : ClientState) (o : FetchOutcome) :
    (∃ r, Ahpjs.calculateWeightsTry crit sel st o = Except.ok r
        ∧ Ahpjs.calculateWeights crit sel st o = r)
    ∨ (∃ e, Ahpjs.calculateWeightsTry crit sel st o = Except.error e
        ∧ (Ahpjs.calculateWeights crit sel st o).2.alerts =
            st.alerts ++ ["Error calculating weights: " ++ e]) := by
  cases o with
  | thrown msg => exact Or.inr ⟨msg, rfl, rfl⟩
  | ok data =>
    left
    have h1 : Ahpjs.calculateWeightsTry crit sel st (FetchOutcome.ok data) =
        Except.ok (Ahpjs.calculateWeights crit sel st (FetchOutcome.ok data)) := by
      rcases hs : data.success with _ | b
      · simp only [Ahpjs.calculateWeightsTry, Ahpjs.calculateWeights,
          Ahpjs.calcBody, hs, Except.map]
      · cases b <;>
          simp only [Ahpjs.calculateWeightsTry, Ahpjs.calculateWeights,
            Ahpjs.calcBody, hs, Except.map]
    exact ⟨_, h1, rfl⟩

/-- Claim C7: starting from the hardcoded list, any sequence of
`addCriteria` and `removeCriteria` operations keeps the criteria list free
of duplicates and of empty names; `addCriteria` only appends a trimmed
non-empty absent name, and `removeCriteria` removes every occurrence of the
named criterion. -/
theorem C7_criteria_list_invariant :
    (∀ ops : List Part000.CritOp,
      (Part000.applyOps Part000.criteria ops).Nodup
      ∧ ∀ c ∈ Part000.applyOps Part000.criteria ops, c ≠ "")
    ∧ (∀ (cs : List String) (input : String),
        Part000.addCriteria cs input = cs
        ∨ (jsTrim input ≠ "" ∧ jsTrim input ∉ cs
            ∧ Part000.addCriteria cs input = cs ++ [jsTrim input]))
    ∧ (∀ (cs : List String) (text c : String),
        c ∈ Part000.removeCriteria cs text ↔ (c ∈ cs ∧ c ≠ jsTrim text)) := by
  refine ⟨?_, ?_, ?_⟩
  · intro ops
    exact goodCriteria_applyOps ops goodCriteria_initial
  · intro cs input
    by_cases hc : (jsTrim input != "") && !(cs.contains (jsTrim input))
    · right
      have hc' := hc
      simp only [Bool.and_eq_true, bne_iff_ne, Bool.not_eq_eq_eq_not,
        Bool.not_true] at hc'
      have hnotmem : jsTrim input ∉ cs := by
        intro hmem
        have hco : cs.contains (jsTrim input) = true := List.elem_iff.mpr hmem
        rw [hco] at hc'
        exact Bool.noConfusion hc'.2
      refine ⟨hc'.1, hnotmem, ?_⟩
      rw [Part000.addCriteria, if_pos hc]
    · left
      rw [Part000.addCriteria, if_neg hc]
  · intro cs text c
    rw [Part000.removeCriteria]
    simp only [List.mem_filter, bne_iff_ne]

/-- Witness for C7 at a concrete element of the initial list. -/
theorem C7_criteria_list_invariant_witness : ("Price" : String) ≠ "" :=
  (C7_criteria_list_invariant.1 []).2 "Price" (by decide)

/-- Counterexample to claim C8 as stated: in part_000 a session can call
`addCriteria` with a fresh name, after which the criteria list no longer
has length 9. -/
theorem C8_fixed_nine_counterexample :
    (Part000.addCriteria Part000.criteria "Storage").length = 10
    ∧ (Part000.addCriteria Part000.criteria "Storage").length ≠ 9 := by
  constructor <;> decide

/-- Claim C8 (amended): both files initialize the criteria list with the
same nine hardcoded names, and ahp.js declares it `const` with no mutating
code, so there its length is always 9; part_000, however, exposes
`addCriteria`/`removeCriteria`, which can change the length. -/
theorem C8_nine_hardcoded_criteria :
    Ahpjs.criteria.length = 9
    ∧ Part000.criteria = Ahpjs.criteria
    ∧ (Part000.addCriteria Part000.criteria "Storage").length ≠ 9 := by
  refine ⟨by decide, by decide, by decide⟩

/-- Claim C9: the five functions shared by the two source files are
identical, and in particular `getPairwiseMatrix` returns the same matrix
for the same criteria list and selection state in both files. -/
theorem C9_two_files_equivalent :
    Ahpjs.createRadio = Part000.createRadio
    ∧ Ahpjs.generatePairwiseComparisons = Part000.generatePairwiseComparisons
    ∧ Ahpjs.getPairwiseMatrix = Part000.getPairwiseMatrix
    ∧ Ahpjs.calculateWeights = Part000.calculateWeights
    ∧ Ahpjs.displayResults = Part000.displayResults
    ∧ ∀ (crit : List String) (sel : Selection),
        Ahpjs.getPairwiseMatrix crit sel = Part000.getPairwiseMatrix crit sel :=
  ⟨rfl, rfl, rfl, rfl, rfl, fun _ _ => rfl⟩

/-- Claim C10: with n ≥ 2 criteria, `generatePairwiseComparisons` renders
one comparison group per strict upper-triangle pair, n(n-1)/2 of them, in
lexicographic order, each offering the 17 scale values with value 1
pre-checked; with n < 2 it only alerts; and `getPairwiseMatrix` reads back
only those upper-triangle groups. -/
theorem C10_comparison_generation (crit : List String) (ui : UIState) :
    (crit.length < 2 →
      Ahpjs.generatePairwiseComparisons crit ui =
        { ui with alerts := ui.alerts ++ ["Please add at least 2 criteria"] })
    ∧ (2 ≤ crit.length →
      (Ahpjs.generatePairwiseComparisons crit ui).container =
          String.join ((upperPairs crit.length).map (Ahpjs.comparisonRow crit))
      ∧ (Ahpjs.generatePairwiseComparisons crit ui).pairwiseVisible = true
      ∧ (upperPairs crit.length).length =
          crit.length * (crit.length - 1) / 2
      ∧ (∀ p : Nat × Nat,
          p ∈ upperPairs crit.length ↔ p.1 < p.2 ∧ p.2 < crit.length)
      ∧ (upperPairs crit.length).Pairwise lexLt
      ∧ scaleEntries.length = 17
      ∧ scaleEntries.map (fun o => o.1) = scaleList
      ∧ (scaleEntries.filter (fun o => o.2.2)).map (fun o => o.1) = [1])
    ∧ (∀ sel sel' : Selection,
        (∀ p ∈ upperPairs crit.length, sel p.1 p.2 = sel' p.1 p.2) →
        Ahpjs.getPairwiseMatrix crit sel = Ahpjs.getPairwiseMatrix crit sel') := by
  refine ⟨?_, ?_, ?_⟩
  · intro h
    rw [Ahpjs.generatePairwiseComparisons, if_pos h]
  · intro h
    rw [Ahpjs.generatePairwiseComparisons, if_neg (by omega)]
    refine ⟨rfl, rfl, ?_, fun p => mem_upperPairs, pairwise_lexLt_upperPairs _,
      rfl, rfl, rfl⟩
    have := two_mul_length_upperPairs crit.length
    omega
  · intro sel sel' hagree
    rw [Ahpjs.getPairwiseMatrix, Ahpjs.getPairwiseMatrix]
    exact foldl_applySel_congr sel sel' _ hagree _

/-- Witness for C10 at concrete criteria lists for both branches. -/
theorem C10_comparison_generation_witness :
    Ahpjs.generatePairwiseComparisons ["A"] uiEmpty =
      { uiEmpty with alerts := uiEmpty.alerts ++ ["Please add at least 2 criteria"] }
    ∧ (upperPairs (["A", "B", "C"] : List String).length).length =
        (["A", "B", "C"] : List String).length *
          ((["A", "B", "C"] : List String).length - 1) / 2 :=
  ⟨(C10_comparison_generation ["A"] uiEmpty).1 (by decide),
   ((C10_comparison_generation ["A", "B", "C"] uiEmpty).2.1 (by decide)).2.2.1⟩

end SteamAhp
